import Mathlib

/-!
Verification development for the message-archiving REST service in
`src/index.ts` of the betterdiscord-ai-detect-plugin repository.

The server keeps chat messages and their substructure (attachments, embeds,
components, members, mentions, reply references) in a SQLite database and
exposes ingestion, read, context-assembly and annotation endpoints.  This file
gives a shallow embedding of that layer: the database is a record of row
lists, each Express handler becomes a pure Lean function from the database
(and the request payload) to a response, and the fallibility of individual
`db.run` child inserts is made explicit through an oracle parameter.
-/

namespace AiDetect

/-! ## Text ordering

SQLite compares TEXT columns with its BINARY collation (byte order); for the
ASCII ISO-8601 timestamps this service stores, that is exactly lexicographic
order by character code, which is what `lexLe` computes.  We use our own
structurally recursive comparison so that concrete runs reduce inside the
kernel. -/

def lexLe : List Char → List Char → Bool
  | [], _ => true
  | _ :: _, [] => false
  | a :: as, b :: bs =>
    if a.toNat < b.toNat then true
    else if b.toNat < a.toNat then false
    else lexLe as bs

/-- Lexicographic comparison of strings by character code: the order SQLite's
BINARY collation induces on the ASCII text this service stores. -/
def strLe (a b : String) : Bool := lexLe a.toList b.toList

/-- Ordering on nullable TEXT values as SQLite's ascending ORDER BY sees them:
NULL sorts before every string. -/
def leTs : Option String → Option String → Bool
  | none, _ => true
  | some _, none => false
  | some a, some b => strLe a b

/-! ## A structural stable sort

SQLite's ORDER BY and JavaScript's Array.prototype.sort are both modeled by a
stable insertion sort on a Bool-valued comparison; ties between equal sort
keys are left in list order, matching the stable JS sort and fixing one of
the orders SQLite may return. -/

def orderedInsertB {α : Type} (le : α → α → Bool) (a : α) : List α → List α
  | [] => [a]
  | b :: l => if le a b then a :: b :: l else b :: orderedInsertB le a l

def insertionSortB {α : Type} (le : α → α → Bool) : List α → List α
  | [] => []
  | a :: l => orderedInsertB le a (insertionSortB le l)

/-! ## Relational schema

One structure per table created in `db.serialize()` of src/index.ts, with
SQL NULL-able columns as `Option` and SQLite INTEGER booleans as `Int`
(the handler stores 0/1).  Surrogate AUTOINCREMENT ids are not modeled: the
position in the row list plays that role. -/

structure MessageRow where
  id : String
  event_type : Option String
  guildId : Option String
  channelId : Option String
  message_guild_id : Option String
  author_id : Option String
  content : Option String
  edited_timestamp : Option String
  flags : Option Int
  nonce : Option String
  pinned : Int
  message_timestamp : Option String
  tts : Int
  message_type : Option Int
  optimistic : Int
  isPushNotification : Int
  created_at : Option String
deriving DecidableEq

structure AuthorRow where
  id : String
  avatar : Option String
  clan : Option String
  discriminator : Option String
  primary_guild : Option String
  username : Option String
  publicFlags : Option Int
  avatarDecorationData : Option String
  globalName : Option String
deriving DecidableEq

structure AttachmentRow where
  message_id : String
  attachment_id : Option String
  filename : Option String
  size : Option Int
  url : Option String
  proxy_url : Option String
  height : Option Int
  width : Option Int
deriving DecidableEq

structure EmbedRow where
  message_id : String
  title : Option String
  embed_type : Option String
  description : Option String
  url : Option String
  timestamp : Option String
  color : Option Int
  footer : Option String
  image : Option String
  thumbnail : Option String
  video : Option String
  provider : Option String
  fields : Option String
deriving DecidableEq

structure ComponentRow where
  message_id : String
  comp_type : Option Int
  label : Option String
  style : Option Int
  custom_id : Option String
  url : Option String
  disabled : Int
  emoji : Option String
deriving DecidableEq

structure MemberRow where
  message_id : String
  avatar : Option String
  banner : Option String
  communication_disabled_until : Option String
  deaf : Int
  flags : Option Int
  joined_at : Option String
  mute : Int
  nick : Option String
  pending : Int
  premium_since : Option String
  roles : Option String
deriving DecidableEq

structure MentionRow where
  message_id : String
  user_id : Option String
  username : Option String
  discriminator : Option String
  avatar : Option String
  globalName : Option String
deriving DecidableEq

structure MessageRefRow where
  message_id : String
  ref_channel_id : Option String
  ref_guild_id : Option String
  ref_message_id : Option String
  ref_type : Option Int
deriving DecidableEq

structure RefMessageRow where
  id : Option String
  parent_message_id : String
  channel_id : Option String
  content : Option String
  edited_timestamp : Option String
  flags : Option Int
  mention_everyone : Int
  pinned : Int
  timestamp : Option String
  tts : Int
  ref_message_type : Option Int
deriving DecidableEq

structure UserInsightRow where
  user_id : Option String
  insight_name : Option String
  insight_value : Option String
deriving DecidableEq

/-- The whole SQLite database: one list of rows per table, in rowid
(insertion) order. -/
structure DB where
  messages : List MessageRow
  authors : List AuthorRow
  attachments : List AttachmentRow
  embeds : List EmbedRow
  components : List ComponentRow
  members : List MemberRow
  mentions : List MentionRow
  message_references : List MessageRefRow
  referenced_messages : List RefMessageRow
  user_insights : List UserInsightRow
deriving DecidableEq

def emptyDB : DB := ⟨[], [], [], [], [], [], [], [], [], []⟩

/-! ## Inbound JSON payload

The shape of the POST /messages request body; optional JSON fields are
`Option`, JS-truthiness-tested booleans are `Bool`, and object fields that
the handler stores via JSON.stringify are modeled by the serialized text. -/

structure InAuthor where
  id : Option String
  avatar : Option String
  clan : Option String
  discriminator : Option String
  primary_guild : Option String
  username : Option String
  publicFlags : Option Int
  avatarDecorationData : Option String
  globalName : Option String
deriving DecidableEq

structure InAttachment where
  id : Option String
  filename : Option String
  size : Option Int
  url : Option String
  proxy_url : Option String
  height : Option Int
  width : Option Int
deriving DecidableEq

structure InEmbed where
  title : Option String
  type : Option String
  description : Option String
  url : Option String
  timestamp : Option String
  color : Option Int
  footer : Option String
  image : Option String
  thumbnail : Option String
  video : Option String
  provider : Option String
  fields : Option String
deriving DecidableEq

structure InComponent where
  type : Option Int
  label : Option String
  style : Option Int
  custom_id : Option String
  url : Option String
  disabled : Bool
  emoji : Option String
deriving DecidableEq

structure InMember where
  avatar : Option String
  banner : Option String
  communication_disabled_until : Option String
  deaf : Bool
  flags : Option Int
  joined_at : Option String
  mute : Bool
  nick : Option String
  pending : Bool
  premium_since : Option String
  roles : Option String
deriving DecidableEq

structure InMention where
  id : Option String
  username : Option String
  discriminator : Option String
  avatar : Option String
  globalName : Option String
deriving DecidableEq

structure InMessageRef where
  channel_id : Option String
  guild_id : Option String
  message_id : Option String
  type : Option Int
deriving DecidableEq

structure InRefMessage where
  id : Option String
  channel_id : Option String
  content : Option String
  edited_timestamp : Option String
  flags : Option Int
  mention_everyone : Bool
  pinned : Bool
  timestamp : Option String
  tts : Bool
  type : Option Int
deriving DecidableEq

structure InMessage where
  id : Option String
  author : Option InAuthor
  content : Option String
  guild_id : Option String
  edited_timestamp : Option String
  flags : Option Int
  nonce : Option String
  pinned : Bool
  timestamp : Option String
  tts : Bool
  type : Option Int
  attachments : Option (List InAttachment)
  embeds : Option (List InEmbed)
  components : Option (List InComponent)
  member : Option InMember
  mentions : Option (List InMention)
  message_reference : Option InMessageRef
  referenced_message : Option InRefMessage
deriving DecidableEq

/-- The POST /messages envelope `{type, guildId, channelId, message,
optimistic, isPushNotification}`. -/
structure Envelope where
  type : Option String
  guildId : Option String
  channelId : Option String
  message : Option InMessage
  optimistic : Bool
  isPushNotification : Bool
deriving DecidableEq

/-! ## Ingestion handler (POST /messages) -/

/-- JavaScript `x || null` on a nullable string: the empty string is falsy
and collapses to null. -/
def jsOrNullS : Option String → Option String
  | some "" => none
  | o => o

/-- JavaScript `x || null` on a nullable number: 0 is falsy and collapses
to null. -/
def jsOrNullI : Option Int → Option Int
  | some 0 => none
  | o => o

def boolToInt (b : Bool) : Int := if b then 1 else 0

def mkAuthorRow (aid : String) (a : InAuthor) : AuthorRow :=
  ⟨aid, a.avatar, a.clan, a.discriminator, a.primary_guild, a.username,
   a.publicFlags, a.avatarDecorationData, a.globalName⟩

def mkMessageRow (now : String) (env : Envelope) (msg : InMessage) (mid : String) : MessageRow :=
  { id := mid
    event_type := env.type
    guildId := env.guildId
    channelId := env.channelId
    message_guild_id := msg.guild_id
    author_id :=
      match msg.author with
      | some a =>
        match a.id with
        | some aid => if aid = "" then none else some aid
        | none => none
      | none => none
    content := msg.content
    edited_timestamp := msg.edited_timestamp
    flags := msg.flags
    nonce := msg.nonce
    pinned := boolToInt msg.pinned
    message_timestamp := msg.timestamp
    tts := boolToInt msg.tts
    message_type := msg.type
    optimistic := boolToInt env.optimistic
    isPushNotification := boolToInt env.isPushNotification
    created_at := some now }

def mkAttachmentRow (mid : String) (att : InAttachment) : AttachmentRow :=
  ⟨mid, jsOrNullS att.id, jsOrNullS att.filename, jsOrNullI att.size,
   jsOrNullS att.url, jsOrNullS att.proxy_url, jsOrNullI att.height, jsOrNullI att.width⟩

def mkEmbedRow (mid : String) (e : InEmbed) : EmbedRow :=
  ⟨mid, jsOrNullS e.title, jsOrNullS e.type, jsOrNullS e.description, jsOrNullS e.url,
   jsOrNullS e.timestamp, jsOrNullI e.color, e.footer, e.image, e.thumbnail,
   e.video, e.provider, e.fields⟩

def mkComponentRow (mid : String) (c : InComponent) : ComponentRow :=
  ⟨mid, jsOrNullI c.type, jsOrNullS c.label, jsOrNullI c.style, jsOrNullS c.custom_id,
   jsOrNullS c.url, boolToInt c.disabled, c.emoji⟩

def mkMemberRow (mid : String) (mem : InMember) : MemberRow :=
  ⟨mid, jsOrNullS mem.avatar, jsOrNullS mem.banner,
   jsOrNullS mem.communication_disabled_until, boolToInt mem.deaf, jsOrNullI mem.flags,
   jsOrNullS mem.joined_at, boolToInt mem.mute, jsOrNullS mem.nick, boolToInt mem.pending,
   jsOrNullS mem.premium_since, mem.roles⟩

def mkMentionRow (mid : String) (m : InMention) : MentionRow :=
  ⟨mid, jsOrNullS m.id, jsOrNullS m.username, jsOrNullS m.discriminator,
   jsOrNullS m.avatar, jsOrNullS m.globalName⟩

def mkMessageRefRow (mid : String) (r : InMessageRef) : MessageRefRow :=
  ⟨mid, jsOrNullS r.channel_id, jsOrNullS r.guild_id, jsOrNullS r.message_id,
   jsOrNullI r.type⟩

def mkRefMessageRow (mid : String) (rm : InRefMessage) : RefMessageRow :=
  ⟨jsOrNullS rm.id, mid, jsOrNullS rm.channel_id, jsOrNullS rm.content,
   jsOrNullS rm.edited_timestamp, jsOrNullI rm.flags, boolToInt rm.mention_everyone,
   boolToInt rm.pinned, jsOrNullS rm.timestamp, boolToInt rm.tts, jsOrNullI rm.type⟩

/-- Result of running an INSERT OR REPLACE keyed on `messages.id`: the
conflicting row (if any) is deleted and the new row inserted with a fresh
rowid, i.e. at the end of the list. -/
def upsertMessageRow (row : MessageRow) (l : List MessageRow) : List MessageRow :=
  (l.filter fun r => r.id != row.id) ++ [row]

def upsertAuthorRow (row : AuthorRow) (l : List AuthorRow) : List AuthorRow :=
  (l.filter fun r => r.id != row.id) ++ [row]

/-- Which of the many independent `db.run` callbacks report an error.  The
handler only logs child-insert failures, so we track them explicitly;
indexed oracles cover per-item inserts of list-valued children. -/
structure Oracle where
  authorFails : Bool
  msgFails : Option String
  attFails : Nat → Bool
  embedFails : Nat → Bool
  compFails : Nat → Bool
  memberFails : Bool
  mentionFails : Nat → Bool
  msgRefFails : Bool
  refMsgFails : Bool

/-- The all-succeed oracle. -/
def okOracle : Oracle :=
  ⟨false, none, fun _ => false, fun _ => false, fun _ => false, false,
   fun _ => false, false, false⟩

/-- Child rows surviving the per-item inserts from index `i` on: a failing
item is only logged and skipped, the rest are inserted. -/
def keptFrom {α β : Type} (fails : Nat → Bool) (mk : α → β) : Nat → List α → List β
  | _, [] => []
  | i, a :: as =>
    if fails i then keptFrom fails mk (i + 1) as
    else mk a :: keptFrom fails mk (i + 1) as

def authorsAfter (o : Oracle) (msg : InMessage) (l : List AuthorRow) : List AuthorRow :=
  match msg.author with
  | some a =>
    match a.id with
    | some aid =>
      if aid = "" then l
      else if o.authorFails then l
      else upsertAuthorRow (mkAuthorRow aid a) l
    | none => l
  | none => l

def attachmentsAfter (o : Oracle) (mid : String) (msg : InMessage)
    (l : List AttachmentRow) : List AttachmentRow :=
  match msg.attachments with
  | some items => l ++ keptFrom o.attFails (mkAttachmentRow mid) 0 items
  | none => l

def embedsAfter (o : Oracle) (mid : String) (msg : InMessage)
    (l : List EmbedRow) : List EmbedRow :=
  match msg.embeds with
  | some items => l ++ keptFrom o.embedFails (mkEmbedRow mid) 0 items
  | none => l

def componentsAfter (o : Oracle) (mid : String) (msg : InMessage)
    (l : List ComponentRow) : List ComponentRow :=
  match msg.components with
  | some items => l ++ keptFrom o.compFails (mkComponentRow mid) 0 items
  | none => l

def mentionsAfter (o : Oracle) (mid : String) (msg : InMessage)
    (l : List MentionRow) : List MentionRow :=
  match msg.mentions with
  | some items => l ++ keptFrom o.mentionFails (mkMentionRow mid) 0 items
  | none => l

def membersAfter (o : Oracle) (mid : String) (msg : InMessage)
    (l : List MemberRow) : List MemberRow :=
  match msg.member with
  | some mem =>
    if o.memberFails then l
    else (l.filter fun r => r.message_id != mid) ++ [mkMemberRow mid mem]
  | none => l

def msgRefsAfter (o : Oracle) (mid : String) (msg : InMessage)
    (l : List MessageRefRow) : List MessageRefRow :=
  match msg.message_reference with
  | some r =>
    if o.msgRefFails then l
    else (l.filter fun x => x.message_id != mid) ++ [mkMessageRefRow mid r]
  | none => l

def refMsgsAfter (o : Oracle) (mid : String) (msg : InMessage)
    (l : List RefMessageRow) : List RefMessageRow :=
  match msg.referenced_message with
  | some rm =>
    if o.refMsgFails then l
    else
      match jsOrNullS rm.id with
      | some rid => (l.filter fun x => x.id != some rid) ++ [mkRefMessageRow mid rm]
      | none => l ++ [mkRefMessageRow mid rm]
  | none => l

inductive IngestResp where
  | badRequest (error : String)
  | serverError (error : String)
  | success
deriving DecidableEq

def missingIdError : String := "Message object must contain an id"

/-- The POST /messages handler.  `now` is the CURRENT_TIMESTAMP default used
for the new message row's `created_at`.  The author upsert is issued before
the message insert, so it happens even when the message insert then fails
with a 500; child inserts run only after the message insert succeeded, and
each failure among them is only logged. -/
def ingest (o : Oracle) (now : String) (db : DB) (env : Envelope) : DB × IngestResp :=
  match env.message with
  | none => ⟨db, .badRequest missingIdError⟩
  | some msg =>
    match msg.id with
    | none => ⟨db, .badRequest missingIdError⟩
    | some mid =>
      if mid = "" then ⟨db, .badRequest missingIdError⟩
      else
        let db1 : DB := { db with authors := authorsAfter o msg db.authors }
        match o.msgFails with
        | some e => ⟨db1, .serverError e⟩
        | none =>
          ⟨{ db1 with
              messages := upsertMessageRow (mkMessageRow now env msg mid) db1.messages
              attachments := attachmentsAfter o mid msg db1.attachments
              embeds := embedsAfter o mid msg db1.embeds
              components := componentsAfter o mid msg db1.components
              members := membersAfter o mid msg db1.members
              mentions := mentionsAfter o mid msg db1.mentions
              message_references := msgRefsAfter o mid msg db1.message_references
              referenced_messages := refMsgsAfter o mid msg db1.referenced_messages },
            .success⟩

/-! ## Context assembler (getMessageContext) and transcript (getChatLog) -/

/-- SQL `=` between two nullable TEXT values: NULL never compares equal,
matching `WHERE m.channelId = ?` when the stored or bound value is NULL. -/
def sqlEqOpt : Option String → Option String → Bool
  | some x, some y => x == y
  | _, _ => false

/-- A row of `SELECT m.*, a.username, a.avatar, a.globalName FROM messages m
LEFT JOIN authors a ON m.author_id = a.id`. -/
structure JoinedMessage where
  row : MessageRow
  username : Option String
  avatar : Option String
  globalName : Option String
deriving DecidableEq

def joinAuthor (db : DB) (m : MessageRow) : JoinedMessage :=
  match m.author_id with
  | some aid =>
    match db.authors.find? (fun a => a.id == aid) with
    | some a => ⟨m, a.username, a.avatar, a.globalName⟩
    | none => ⟨m, none, none, none⟩
  | none => ⟨m, none, none, none⟩

structure MessageContext where
  message : JoinedMessage
  channel_id : Option String
  context_messages : List JoinedMessage
  context_message_count : Nat
deriving DecidableEq

inductive CtxError where
  | notFound
  | dbError (message : String)
deriving DecidableEq

/-- Comparison used by `ORDER BY m.message_timestamp`. -/
def ctxRowLe (a b : MessageRow) : Bool := leTs a.message_timestamp b.message_timestamp

/-- The context query: up to 20 other messages of the same channel, in
`message_timestamp` order — the first 20 such rows overall, not a window
around the target's own timestamp. -/
def contextListOf (db : DB) (m : MessageRow) (mid : String) : List JoinedMessage :=
  ((insertionSortB ctxRowLe
      (db.messages.filter fun r => sqlEqOpt r.channelId m.channelId && r.id != mid)).take 20).map
    (joinAuthor db)

/-- getMessageContext: rejects with "Message not found" when no message row
has the requested id, otherwise resolves the context bundle. -/
def getMessageContext (db : DB) (mid : String) : Except CtxError MessageContext :=
  match db.messages.find? (fun r => r.id == mid) with
  | none => .error .notFound
  | some m =>
    .ok { message := joinAuthor db m
          channel_id := m.channelId
          context_messages := contextListOf db m mid
          context_message_count := (contextListOf db m mid).length }

/-- Template-literal interpolation of a nullable DB value: SQL NULL arrives
in JS as null and prints as "null". -/
def optVal : Option String → String
  | some s => s
  | none => "null"

/-- JavaScript `a || b` on nullable strings: null and the empty string fall
through to `b`. -/
def jsOrStr : Option String → Option String → Option String
  | some s, b => if s = "" then b else some s
  | none, b => b

/-- Models the JavaScript expression `new Date(s).toISOString().substr(11, 5)`
on the stored `message_timestamp`: for the canonical UTC ISO-8601 strings this
service receives from the host platform, the HH:MM part is the five characters
from index 11; a NULL timestamp parses as the epoch, whose time part is
00:00. -/
def isoToUtcHHMM : Option String → String
  | some s => (s.drop 11).take 5
  | none => "00:00"

/-- Time shown for a transcript line: `created_at.slice(11, 16)` when the
row's `created_at` is truthy ("YYYY-MM-DD HH:MM:SS" local format), otherwise
derived from the ISO `message_timestamp`. -/
def renderTime (jm : JoinedMessage) : String :=
  match jm.row.created_at with
  | some c => if c = "" then isoToUtcHHMM jm.row.message_timestamp else (c.drop 11).take 5
  | none => isoToUtcHHMM jm.row.message_timestamp

/-- Display name of a transcript line: `msg.globalName || msg.username`. -/
def renderName (jm : JoinedMessage) : String :=
  optVal (jsOrStr jm.globalName jm.username)

/-- One transcript line "[HH:MM] name: content". -/
def renderLine (jm : JoinedMessage) : String :=
  "[" ++ renderTime jm ++ "] " ++ renderName jm ++ ": " ++ optVal jm.row.content

/-- Comparison for the defensive re-sort in getChatLog
(`new Date(a.message_timestamp) - new Date(b.message_timestamp)`); agrees
with lexicographic comparison on canonical UTC ISO-8601 timestamps. -/
def chatLogLe (a b : JoinedMessage) : Bool :=
  leTs a.row.message_timestamp b.row.message_timestamp

def sortCtxMessages (l : List JoinedMessage) : List JoinedMessage :=
  insertionSortB chatLogLe l

/-- Body of getChatLog once the context promise settled: the catch block
turns every rejection into the empty sequence. -/
def chatLogOfResult : Except CtxError MessageContext → List String
  | .error _ => []
  | .ok ctx => (sortCtxMessages ctx.context_messages).map renderLine

def getChatLog (db : DB) (mid : String) : List String :=
  chatLogOfResult (getMessageContext db mid)

/-! ## Read API -/

inductive ReadResp (α : Type) where
  | ok (body : α)
  | notFound (error : String)

/-- Comparison for `ORDER BY m.created_at DESC` (SQLite puts NULLs last in
descending order). -/
def createdDescLe (a b : MessageRow) : Bool := leTs b.created_at a.created_at

/-- GET /messages. -/
def getAllMessages (db : DB) : ReadResp (List JoinedMessage) :=
  .ok ((insertionSortB createdDescLe db.messages).map (joinAuthor db))

/-- The seven child-entity sets fetched in parallel by GET /messages/:id;
all seven use `db.all`, so each is a row list. -/
structure MessageDetail where
  message : JoinedMessage
  attachments : List AttachmentRow
  embeds : List EmbedRow
  components : List ComponentRow
  member : List MemberRow
  mentions : List MentionRow
  message_reference : List MessageRefRow
  referenced_message : List RefMessageRow
deriving DecidableEq

/-- GET /messages/:id. -/
def getMessageById (db : DB) (mid : String) : ReadResp MessageDetail :=
  match db.messages.find? (fun r => r.id == mid) with
  | none => .notFound "Message not found"
  | some m =>
    .ok ⟨joinAuthor db m,
         db.attachments.filter (fun r => r.message_id == mid),
         db.embeds.filter (fun r => r.message_id == mid),
         db.components.filter (fun r => r.message_id == mid),
         db.members.filter (fun r => r.message_id == mid),
         db.mentions.filter (fun r => r.message_id == mid),
         db.message_references.filter (fun r => r.message_id == mid),
         db.referenced_messages.filter (fun r => r.parent_message_id == mid)⟩

/-- GET /messages/user/:userId. -/
def getMessagesByUser (db : DB) (uid : String) : ReadResp (List JoinedMessage) :=
  .ok ((insertionSortB createdDescLe
          (db.messages.filter fun m => sqlEqOpt m.author_id (some uid))).map (joinAuthor db))

/-- GET /authors (ORDER BY username; NULL handles sort first). -/
def getAuthors (db : DB) : ReadResp (List AuthorRow) :=
  .ok (insertionSortB (fun a b => leTs a.username b.username) db.authors)

/-- GET /authors/:id. -/
def getAuthorById (db : DB) (aid : String) : ReadResp AuthorRow :=
  match db.authors.find? (fun a => a.id == aid) with
  | none => .notFound "Author not found"
  | some a => .ok a

/-- GET /messages/:id/attachments. -/
def getMessageAttachments (db : DB) (mid : String) : ReadResp (List AttachmentRow) :=
  .ok (db.attachments.filter fun r => r.message_id == mid)

/-- GET /messages/:id/embeds. -/
def getMessageEmbeds (db : DB) (mid : String) : ReadResp (List EmbedRow) :=
  .ok (db.embeds.filter fun r => r.message_id == mid)

/-- GET /messages/:id/components. -/
def getMessageComponents (db : DB) (mid : String) : ReadResp (List ComponentRow) :=
  .ok (db.components.filter fun r => r.message_id == mid)

/-- GET /messages/:id/mentions. -/
def getMessageMentions (db : DB) (mid : String) : ReadResp (List MentionRow) :=
  .ok (db.mentions.filter fun r => r.message_id == mid)

/-- GET /messages/:id/member (`db.get`: at most one row, 200 even when no
row matches). -/
def getMessageMember (db : DB) (mid : String) : ReadResp (Option MemberRow) :=
  .ok (db.members.find? fun r => r.message_id == mid)

/-- GET /messages/:id/message-reference. -/
def getMessageRef (db : DB) (mid : String) : ReadResp (Option MessageRefRow) :=
  .ok (db.message_references.find? fun r => r.message_id == mid)

/-- GET /messages/:id/referenced-message. -/
def getReferencedMessage (db : DB) (mid : String) : ReadResp (Option RefMessageRow) :=
  .ok (db.referenced_messages.find? fun r => r.parent_message_id == mid)

/-! ## Annotation bridges -/

/-- The outbound request POST /messages/classifier builds for the external
content-origin classifier. -/
structure PredictRequest where
  url : String
  text : String
deriving DecidableEq

def predictEndpoint : String := "http://127.0.0.1:8000/predict"

/-- Request body of POST /messages/classifier. -/
structure ClassifierBody where
  text : List String
deriving DecidableEq

/-- The handler joins all texts with newline separators into one blob
(`messages.text.join` with separator "\n") and always issues the outbound
POST, even for zero texts. -/
def classifierForward (body : ClassifierBody) : PredictRequest :=
  ⟨predictEndpoint, String.intercalate "\n" body.text⟩

/-- Minimal model of JSON.stringify string escaping (backslash, quote and
the whitespace control characters). -/
def jsonEscapeChar (c : Char) : String :=
  if c = '\\' then "\\\\"
  else if c = '"' then "\\\""
  else if c = '\n' then "\\n"
  else if c = '\r' then "\\r"
  else if c = '\t' then "\\t"
  else String.singleton c

def jsonEscape (s : String) : String :=
  String.join (s.toList.map jsonEscapeChar)

/-- JSON.stringify of the chat-log string array. -/
def jsonStringifyStrings (l : List String) : String :=
  "[" ++ String.intercalate "," (l.map fun s => "\"" ++ jsonEscape s ++ "\"") ++ "]"

/-- Text of the tone-classification template literal before the interpolated
chat log. -/
def tonePreamble : String :=
  "\n\n            Here is the context for the chat log for the conversation. Please return the tone for the last message in the chat log.\n            "

/-- Text of the tone-classification template literal after the interpolated
chat log. -/
def toneEpilogue : String := "\n        "

/-- The single chat message POST /messages/tone sends to the local
chat-completion endpoint. -/
structure ToneQuery where
  role : String
  content : String
deriving DecidableEq

def toneQueryFor (db : DB) (mid : String) : ToneQuery :=
  ⟨"user", tonePreamble ++ jsonStringifyStrings (getChatLog db mid) ++ toneEpilogue⟩

/-! ## User insights -/

structure InsightStat where
  insight_name : String
  insight_value : String
deriving DecidableEq

structure MessageWithContext where
  message : MessageRow
  related_messages : List JoinedMessage
deriving DecidableEq

inductive GenInsightsResp where
  | noMessages (user_id : String) (message_count : Nat)
  | ok (user_id : String) (message_count : Nat) (insights : List InsightStat)
      (messages : List MessageWithContext)
deriving DecidableEq

/-- SQL `BETWEEN` on a nullable TEXT column (NULL is never in the range). -/
def sqlBetween (x : Option String) (lo hi : String) : Bool :=
  match x with
  | none => false
  | some s => strLe lo s && strLe s hi

/-- The ±5-minute channel window fetched per user message.  `lo`/`hi` model
the JavaScript Date arithmetic `new Date(t ± 5*60*1000).toISOString()` on the
(nullable) stored timestamp; the handler's behavior is characterized for any
such bound computation. -/
def relatedWindow (lo hi : Option String → String) (db : DB) (msg : MessageRow) :
    List JoinedMessage :=
  ((insertionSortB ctxRowLe
      (db.messages.filter fun r =>
        sqlEqOpt r.channelId msg.channelId
          && sqlBetween r.message_timestamp (lo msg.message_timestamp) (hi msg.message_timestamp)
          && r.id != msg.id)).map (joinAuthor db))

/-- POST /user_insights/generate/:user_id.  It only reads: the two statistics
and the context bundles are computed and returned, and nothing is written to
the user_insights table (the function does not even produce a new DB). -/
def generateUserInsights (lo hi : Option String → String) (db : DB) (uid : String) :
    GenInsightsResp :=
  let userMessages := db.messages.filter fun m => sqlEqOpt m.author_id (some uid)
  if userMessages.length = 0 then .noMessages uid 0
  else
    .ok uid userMessages.length
      [⟨"message_count", toString userMessages.length⟩,
       ⟨"channels_posted_in", toString (userMessages.map (fun m => m.channelId)).dedup.length⟩]
      ((userMessages.map fun m => MessageWithContext.mk m (relatedWindow lo hi db m)).take 20)

structure InsightsReadResp where
  user_id : String
  insights : List UserInsightRow
  message : Option String
deriving DecidableEq

/-- GET /user_insights/generate/:user_id: serves rows of the user_insights
table, with an "empty" sentinel body when none match. -/
def getUserInsightsRead (db : DB) (uid : String) : InsightsReadResp :=
  let rows := insertionSortB (fun a b => leTs a.insight_name b.insight_name)
    (db.user_insights.filter fun r => sqlEqOpt r.user_id (some uid))
  if rows.length = 0 then ⟨uid, [], some "No insights found for this user"⟩
  else ⟨uid, rows, none⟩

/-- States reachable through this server's handlers, starting from the
freshly created empty database.  POST /messages is the only handler that
writes; every other endpoint is modeled as a pure function of the DB. -/
inductive Reachable : DB → Prop where
  | init : Reachable emptyDB
  | postMessages {db : DB} (o : Oracle) (now : String) (env : Envelope) :
      Reachable db → Reachable (ingest o now db env).1

/-! ## Concrete data used by the examples and witnesses -/

/-- Row constructor for the example fixtures: a plain text message in guild
"G" with the given id, channel, author, content, origin timestamp and
ingestion timestamp. -/
def baseRow (mid : String) (ch aid cnt ts cat : Option String) : MessageRow :=
  { id := mid
    event_type := some "MESSAGE_CREATE"
    guildId := some "G"
    channelId := ch
    message_guild_id := none
    author_id := aid
    content := cnt
    edited_timestamp := none
    flags := none
    nonce := none
    pinned := 0
    message_timestamp := ts
    tts := 0
    message_type := some 0
    optimistic := 0
    isPushNotification := 0
    created_at := cat }

def exA1 : AuthorRow :=
  ⟨"a1", none, none, none, none, some "ann", none, none, some "Ann"⟩

def exA3 : AuthorRow :=
  ⟨"a3", none, none, none, none, some "bea", none, none, none⟩

def exM1 : MessageRow :=
  baseRow "m1" (some "C") (some "a1") (some "hello")
    (some "2024-01-01T10:00:00.000Z") (some "2024-01-01 10:00:00")

def exM2 : MessageRow :=
  baseRow "m2" (some "C") (some "a1") (some "middle")
    (some "2024-01-01T10:01:00.000Z") (some "2024-01-01 10:01:00")

def exM3 : MessageRow :=
  baseRow "m3" (some "C") (some "a3") (some "bye")
    (some "2024-01-01T10:10:00.000Z") none

/-- Three messages at timestamps T, T+1m and T+10m in channel "C", stored in
an order different from timestamp order. -/
def exDb : DB := ⟨[exM2, exM3, exM1], [exA1, exA3], [], [], [], [], [], [], [], []⟩

/-- The context bundle getMessageContext resolves for "m2" on `exDb`. -/
def exCtx : MessageContext :=
  { message := ⟨exM2, some "ann", none, some "Ann"⟩
    channel_id := some "C"
    context_messages := [⟨exM1, some "ann", none, some "Ann"⟩, ⟨exM3, some "bea", none, none⟩]
    context_message_count := 2 }

def exAuthorIn : InAuthor :=
  ⟨some "a1", none, none, none, none, some "ann", none, none, some "Ann"⟩

def exAtt1 : InAttachment :=
  ⟨some "att1", some "a.png", some 10, some "u1", none, none, none⟩

def exAtt2 : InAttachment :=
  ⟨some "att2", some "b.png", some 20, some "u2", none, none, none⟩

def exEmbed1 : InEmbed :=
  ⟨some "t", none, none, none, none, none, none, none, none, none, none, none⟩

def exMsgIn1 : InMessage :=
  { id := some "M"
    author := some exAuthorIn
    content := some "first"
    guild_id := none
    edited_timestamp := none
    flags := none
    nonce := none
    pinned := false
    timestamp := some "2024-01-01T10:00:00.000Z"
    tts := false
    type := some 0
    attachments := some [exAtt1, exAtt2]
    embeds := some [exEmbed1]
    components := none
    member := none
    mentions := none
    message_reference := none
    referenced_message := none }

def exMsgIn2 : InMessage :=
  { exMsgIn1 with content := some "second", attachments := none, embeds := none }

def exEnv1 : Envelope :=
  ⟨some "MESSAGE_CREATE", some "G", some "C", some exMsgIn1, false, false⟩

def exEnv2 : Envelope :=
  ⟨some "MESSAGE_CREATE", some "G", some "C", some exMsgIn2, false, false⟩

/-- An envelope with no message object at all. -/
def exEnvNoMessage : Envelope := ⟨some "MESSAGE_CREATE", some "G", some "C", none, false, false⟩

/-- An oracle under which the insert of the first attachment fails and
everything else succeeds. -/
def failFirstAttOracle : Oracle :=
  ⟨false, none, fun i => i == 0, fun _ => false, fun _ => false, false,
   fun _ => false, false, false⟩

/-! ## Helper lemmas -/

theorem lexLe_total : ∀ x y : List Char, lexLe x y = true ∨ lexLe y x = true := by
  intro x
  induction x with
  | nil => intro y; left; rfl
  | cons a as ih =>
    intro y
    cases y with
    | nil => right; rfl
    | cons b bs =>
      by_cases hab : a.toNat < b.toNat
      · left; simp [lexLe, hab]
      · by_cases hba : b.toNat < a.toNat
        · right; simp [lexLe, hba]
        · rcases ih bs with h | h
          · left; simp [lexLe, hab, hba, h]
          · right; simp [lexLe, hab, hba, h]

theorem lexLe_trans : ∀ x y z : List Char,
    lexLe x y = true → lexLe y z = true → lexLe x z = true := by
  intro x
  induction x with
  | nil => intro y z _ _; rfl
  | cons a as ih =>
    intro y z hxy hyz
    cases y with
    | nil => simp [lexLe] at hxy
    | cons b bs =>
      cases z with
      | nil => simp [lexLe] at hyz
      | cons c cs =>
        simp only [lexLe] at hxy hyz ⊢
        by_cases hab : a.toNat < b.toNat
        · by_cases hbc : b.toNat < c.toNat
          · have hac : a.toNat < c.toNat := Nat.lt_trans hab hbc
            simp [hac]
          · by_cases hcb : c.toNat < b.toNat
            · simp [hbc, hcb] at hyz
            · have hbc' : b.toNat = c.toNat := Nat.le_antisymm (Nat.le_of_not_lt hcb) (Nat.le_of_not_lt hbc)
              have hac : a.toNat < c.toNat := hbc' ▸ hab
              simp [hac]
        · by_cases hba : b.toNat < a.toNat
          · simp [hab, hba] at hxy
          · have hab' : a.toNat = b.toNat := Nat.le_antisymm (Nat.le_of_not_lt hba) (Nat.le_of_not_lt hab)
            by_cases hbc : b.toNat < c.toNat
            · have hac : a.toNat < c.toNat := hab' ▸ hbc
              simp [hac]
            · by_cases hcb : c.toNat < b.toNat
              · simp [hbc, hcb] at hyz
              · have hbc' : b.toNat = c.toNat := Nat.le_antisymm (Nat.le_of_not_lt hcb) (Nat.le_of_not_lt hbc)
                have hac : ¬ a.toNat < c.toNat := by omega
                have hca : ¬ c.toNat < a.toNat := by omega
                simp only [hac, hca, if_neg, if_false]
                simp only [hab, hba, if_neg] at hxy
                simp only [hbc, hcb, if_neg] at hyz
                exact ih bs cs (by simpa using hxy) (by simpa using hyz)

theorem strLe_total (a b : String) : strLe a b = true ∨ strLe b a = true :=
  lexLe_total a.toList b.toList

theorem strLe_trans {a b c : String} :
    strLe a b = true → strLe b c = true → strLe a c = true :=
  lexLe_trans a.toList b.toList c.toList

theorem leTs_total (a b : Option String) : leTs a b = true ∨ leTs b a = true := by
  cases a with
  | none => left; rfl
  | some x =>
    cases b with
    | none => right; rfl
    | some y => exact strLe_total x y

theorem leTs_trans {a b c : Option String} :
    leTs a b = true → leTs b c = true → leTs a c = true := by
  cases a with
  | none => intro _ _; rfl
  | some x =>
    cases b with
    | none => intro h _; simp [leTs] at h
    | some y =>
      cases c with
      | none => intro _ h; simp [leTs] at h
      | some z => exact strLe_trans

theorem mem_orderedInsertB {α : Type} (le : α → α → Bool) (a x : α) :
    ∀ l : List α, x ∈ orderedInsertB le a l ↔ x = a ∨ x ∈ l := by
  intro l
  induction l with
  | nil => simp [orderedInsertB]
  | cons b bs ih =>
    rw [orderedInsertB]
    by_cases h : le a b = true
    · rw [if_pos h]
      simp only [List.mem_cons]
    · rw [if_neg h]
      simp only [List.mem_cons, ih]
      tauto

theorem mem_insertionSortB {α : Type} (le : α → α → Bool) :
    ∀ (l : List α) (x : α), x ∈ insertionSortB le l ↔ x ∈ l := by
  intro l
  induction l with
  | nil => intro x; rfl
  | cons a as ih =>
    intro x
    simp [insertionSortB, mem_orderedInsertB, ih]

theorem length_orderedInsertB {α : Type} (le : α → α → Bool) (a : α) :
    ∀ l : List α, (orderedInsertB le a l).length = l.length + 1 := by
  intro l
  induction l with
  | nil => rfl
  | cons b bs ih =>
    rw [orderedInsertB]
    by_cases h : le a b = true
    · rw [if_pos h]; rfl
    · rw [if_neg h]
      simp [ih]

theorem length_insertionSortB {α : Type} (le : α → α → Bool) :
    ∀ l : List α, (insertionSortB le l).length = l.length := by
  intro l
  induction l with
  | nil => rfl
  | cons a as ih => simp [insertionSortB, length_orderedInsertB, ih]

theorem pairwise_orderedInsertB {α : Type} (le : α → α → Bool)
    (htot : ∀ a b, le a b = true ∨ le b a = true)
    (htrans : ∀ a b c, le a b = true → le b c = true → le a c = true) (a : α) :
    ∀ l : List α, l.Pairwise (fun x y => le x y = true) →
      (orderedInsertB le a l).Pairwise (fun x y => le x y = true) := by
  intro l
  induction l with
  | nil => intro _; simp [orderedInsertB]
  | cons b bs ih =>
    intro hl
    rw [List.pairwise_cons] at hl
    rw [orderedInsertB]
    by_cases h : le a b = true
    · rw [if_pos h]
      rw [List.pairwise_cons]
      refine ⟨?_, List.pairwise_cons.mpr hl⟩
      intro x hx
      rcases List.mem_cons.mp hx with rfl | hx'
      · exact h
      · exact htrans a b x h (hl.1 x hx')
    · have hba : le b a = true := by
        rcases htot a b with hab | hba
        · exact absurd hab h
        · exact hba
      rw [if_neg h]
      rw [List.pairwise_cons]
      refine ⟨?_, ih hl.2⟩
      intro x hx
      rcases (mem_orderedInsertB le a x bs).mp hx with rfl | hx'
      · exact hba
      · exact hl.1 x hx'

theorem pairwise_insertionSortB {α : Type} (le : α → α → Bool)
    (htot : ∀ a b, le a b = true ∨ le b a = true)
    (htrans : ∀ a b c, le a b = true → le b c = true → le a c = true) :
    ∀ l : List α, (insertionSortB le l).Pairwise (fun x y => le x y = true) := by
  intro l
  induction l with
  | nil => exact List.Pairwise.nil
  | cons a as ih => exact pairwise_orderedInsertB le htot htrans a _ ih

example : (getMessageContext exDb "m2").toOption = some exCtx := by decide

example : getChatLog exDb "m2" = ["[10:00] Ann: hello", "[10:10] bea: bye"] := by decide

theorem except_ok_of_toOption {ε α : Type} (r : Except ε α) (v : α)
    (h : r.toOption = some v) : r = .ok v := by
  cases r with
  | ok a => simpa [Except.toOption] using h
  | error e => simp [Except.toOption] at h

/-- Unfolding of the ingestion handler on a validation failure: no table is
touched and the request is rejected with 400. -/
theorem ingest_invalid (o : Oracle) (now : String) (db : DB) (env : Envelope)
    (h : env.message = none
      ∨ ∃ msg, env.message = some msg ∧ (msg.id = none ∨ msg.id = some "")) :
    ingest o now db env = ⟨db, .badRequest missingIdError⟩ := by
  rcases h with h | ⟨msg, hmsg, hid⟩
  · simp only [ingest, h]
  · rcases hid with hid | hid
    · simp only [ingest, hmsg, hid]
    · simp only [ingest, hmsg, hid]
      simp

/-- Unfolding of the ingestion handler on the happy path. -/
theorem ingest_valid (o : Oracle) (now : String) (db : DB) (env : Envelope)
    (msg : InMessage) (mid : String) (henv : env.message = some msg)
    (hid : msg.id = some mid) (hne : mid ≠ "") (hok : o.msgFails = none) :
    ingest o now db env =
      ⟨{ messages := upsertMessageRow (mkMessageRow now env msg mid) db.messages
         authors := authorsAfter o msg db.authors
         attachments := attachmentsAfter o mid msg db.attachments
         embeds := embedsAfter o mid msg db.embeds
         components := componentsAfter o mid msg db.components
         members := membersAfter o mid msg db.members
         mentions := mentionsAfter o mid msg db.mentions
         message_references := msgRefsAfter o mid msg db.message_references
         referenced_messages := refMsgsAfter o mid msg db.referenced_messages
         user_insights := db.user_insights },
       .success⟩ := by
  simp only [ingest, henv, hid, hok, hne, if_neg, ite_false]

/-- No branch of the ingestion handler ever writes the user_insights
table. -/
theorem ingest_user_insights (o : Oracle) (now : String) (db : DB) (env : Envelope) :
    ((ingest o now db env).1).user_insights = db.user_insights := by
  unfold ingest
  repeat first
  | rfl
  | split

theorem countP_upsertMessageRow (row : MessageRow) (l : List MessageRow) :
    (upsertMessageRow row l).countP (fun r => r.id == row.id) = 1 := by
  unfold upsertMessageRow
  rw [List.countP_append]
  have h0 : (l.filter fun r => r.id != row.id).countP (fun r => r.id == row.id) = 0 := by
    rw [List.countP_eq_zero]
    intro a ha
    have h := (List.mem_filter.mp ha).2
    simp only [bne_iff_ne, ne_eq] at h
    simp [h]
  rw [h0]
  simp [List.countP_cons]

theorem find?_upsertMessageRow (row : MessageRow) (l : List MessageRow) :
    (upsertMessageRow row l).find? (fun r => r.id == row.id) = some row := by
  unfold upsertMessageRow
  rw [List.find?_append]
  have h0 : (l.filter fun r => r.id != row.id).find? (fun r => r.id == row.id) = none := by
    rw [List.find?_eq_none]
    intro a ha
    have h := (List.mem_filter.mp ha).2
    simp only [bne_iff_ne, ne_eq] at h
    simp [h]
  rw [h0]
  simp

theorem mem_keptFrom {α β : Type} (fails : Nat → Bool) (mk : α → β) :
    ∀ (l : List α) (j i : Nat) (h : i < l.length),
      fails (j + i) = false → mk (l.get ⟨i, h⟩) ∈ keptFrom fails mk j l := by
  intro l
  induction l with
  | nil => intro j i h; exact absurd h (Nat.not_lt_zero i)
  | cons a as ih =>
    intro j i h hf
    cases i with
    | zero =>
      have hj : fails j = false := by simpa using hf
      simp only [keptFrom, hj, Bool.false_eq_true, if_false]
      exact List.mem_cons_self _ _
    | succ k =>
      have hf' : fails (j + 1 + k) = false := by
        have heq : j + 1 + k = j + (k + 1) := by omega
        rw [heq]; exact hf
      have hm := ih (j + 1) k (Nat.lt_of_succ_lt_succ h) hf'
      simp only [keptFrom]
      by_cases hj : fails j = true
      · rw [if_pos hj]; exact hm
      · rw [if_neg hj]; exact List.mem_cons_of_mem _ hm

/-- The per-item child inserts only ever append rows. -/
theorem attachmentsAfter_extends (o : Oracle) (mid : String) (msg : InMessage)
    (l : List AttachmentRow) : ∃ t, attachmentsAfter o mid msg l = l ++ t := by
  unfold attachmentsAfter
  cases msg.attachments with
  | none => exact ⟨[], (List.append_nil l).symm⟩
  | some items => exact ⟨_, rfl⟩

theorem embedsAfter_extends (o : Oracle) (mid : String) (msg : InMessage)
    (l : List EmbedRow) : ∃ t, embedsAfter o mid msg l = l ++ t := by
  unfold embedsAfter
  cases msg.embeds with
  | none => exact ⟨[], (List.append_nil l).symm⟩
  | some items => exact ⟨_, rfl⟩

theorem componentsAfter_extends (o : Oracle) (mid : String) (msg : InMessage)
    (l : List ComponentRow) : ∃ t, componentsAfter o mid msg l = l ++ t := by
  unfold componentsAfter
  cases msg.components with
  | none => exact ⟨[], (List.append_nil l).symm⟩
  | some items => exact ⟨_, rfl⟩

theorem mentionsAfter_extends (o : Oracle) (mid : String) (msg : InMessage)
    (l : List MentionRow) : ∃ t, mentionsAfter o mid msg l = l ++ t := by
  unfold mentionsAfter
  cases msg.mentions with
  | none => exact ⟨[], (List.append_nil l).symm⟩
  | some items => exact ⟨_, rfl⟩

theorem joinAuthor_row (db : DB) (m : MessageRow) : (joinAuthor db m).row = m := by
  unfold joinAuthor
  repeat first
  | rfl
  | split

/-- Inversion of a successful getMessageContext. -/
theorem getMessageContext_ok_inv {db : DB} {mid : String} {ctx : MessageContext}
    (h : getMessageContext db mid = .ok ctx) :
    ∃ m, db.messages.find? (fun r => r.id == mid) = some m
      ∧ ctx = { message := joinAuthor db m
                channel_id := m.channelId
                context_messages := contextListOf db m mid
                context_message_count := (contextListOf db m mid).length } := by
  unfold getMessageContext at h
  cases hf : db.messages.find? (fun r => r.id == mid) with
  | none => rw [hf] at h; exact absurd h (by simp)
  | some m =>
    rw [hf] at h
    refine ⟨m, rfl, ?_⟩
    cases h
    rfl

/-- Every context message comes from a row of the same channel other than
the target. -/
theorem mem_contextListOf {db : DB} {m : MessageRow} {mid : String} {jm : JoinedMessage}
    (h : jm ∈ contextListOf db m mid) :
    ∃ r, r ∈ db.messages ∧ sqlEqOpt r.channelId m.channelId = true ∧ r.id ≠ mid
      ∧ jm = joinAuthor db r := by
  unfold contextListOf at h
  rcases List.mem_map.mp h with ⟨r, hr, hjm⟩
  have hr' := List.mem_of_mem_take hr
  have hr'' := (mem_insertionSortB _ _ _).mp hr'
  have h3 := List.mem_filter.mp hr''
  have hcond := h3.2
  rw [Bool.and_eq_true] at hcond
  refine ⟨r, h3.1, hcond.1, ?_, hjm.symm⟩
  have := hcond.2
  simpa [bne_iff_ne] using this

theorem contextListOf_length_le (db : DB) (m : MessageRow) (mid : String) :
    (contextListOf db m mid).length ≤ 20 := by
  unfold contextListOf
  rw [List.length_map, List.length_take]
  exact min_le_left _ _

theorem mkMessageRow_id (now : String) (env : Envelope) (msg : InMessage) (mid : String) :
    (mkMessageRow now env msg mid).id = mid := rfl

theorem sorted_contextListOf (db : DB) (m : MessageRow) (mid : String) :
    (contextListOf db m mid).Pairwise
      (fun a b => leTs a.row.message_timestamp b.row.message_timestamp = true) := by
  unfold contextListOf
  rw [List.pairwise_map]
  have hp := pairwise_insertionSortB ctxRowLe (fun a b => leTs_total _ _)
    (fun _ _ _ => leTs_trans)
    (db.messages.filter fun r => sqlEqOpt r.channelId m.channelId && r.id != mid)
  refine (List.Pairwise.sublist (List.take_sublist _ _) hp).imp ?_
  intro a b hab
  simpa [joinAuthor_row, ctxRowLe] using hab

/-! ## The claims -/

/-- C1: ingesting the same message id twice, the second time with different
scalar content, leaves exactly one Message row with that id, holding the
second ingestion's content, while the Attachment/Embed/Component/Mention
rows present after the first ingestion are still all present afterwards —
the message row is replaced in place (last write wins) but child rows are
only ever appended, never cleared. -/
theorem claim_c1_reingest_replaces_message_keeps_children
    (o1 o2 : Oracle) (now1 now2 : String) (db0 : DB) (env1 env2 : Envelope)
    (m1 m2 : InMessage) (M : String)
    (h1 : env1.message = some m1) (h1id : m1.id = some M)
    (h2 : env2.message = some m2) (h2id : m2.id = some M) (hM : M ≠ "")
    (hdiff : m1.content ≠ m2.content) (ho2 : o2.msgFails = none) :
    ((ingest o2 now2 (ingest o1 now1 db0 env1).1 env2).1.messages.countP
        (fun r => r.id == M)) = 1
    ∧ (ingest o2 now2 (ingest o1 now1 db0 env1).1 env2).1.messages.find?
        (fun r => r.id == M) = some (mkMessageRow now2 env2 m2 M)
    ∧ (mkMessageRow now2 env2 m2 M).content = m2.content
    ∧ (∃ t, (ingest o2 now2 (ingest o1 now1 db0 env1).1 env2).1.attachments
          = (ingest o1 now1 db0 env1).1.attachments ++ t)
    ∧ (∃ t, (ingest o2 now2 (ingest o1 now1 db0 env1).1 env2).1.embeds
          = (ingest o1 now1 db0 env1).1.embeds ++ t)
    ∧ (∃ t, (ingest o2 now2 (ingest o1 now1 db0 env1).1 env2).1.components
          = (ingest o1 now1 db0 env1).1.components ++ t)
    ∧ (∃ t, (ingest o2 now2 (ingest o1 now1 db0 env1).1 env2).1.mentions
          = (ingest o1 now1 db0 env1).1.mentions ++ t) := by
  rw [ingest_valid o2 now2 (ingest o1 now1 db0 env1).1 env2 m2 M h2 h2id hM ho2]
  dsimp only
  refine ⟨?_, ?_, rfl, ?_, ?_, ?_, ?_⟩
  · have h := countP_upsertMessageRow (mkMessageRow now2 env2 m2 M)
      (ingest o1 now1 db0 env1).1.messages
    rw [mkMessageRow_id] at h
    exact h
  · have h := find?_upsertMessageRow (mkMessageRow now2 env2 m2 M)
      (ingest o1 now1 db0 env1).1.messages
    rw [mkMessageRow_id] at h
    exact h
  · exact attachmentsAfter_extends o2 M m2 _
  · exact embedsAfter_extends o2 M m2 _
  · exact componentsAfter_extends o2 M m2 _
  · exact mentionsAfter_extends o2 M m2 _

/-- C1 witness: two concrete ingestions of message id "M" into the empty
database, the first with content "first" and two attachments, the second
with content "second". -/
theorem claim_c1_reingest_replaces_message_keeps_children_witness :
    ((ingest okOracle "2024-01-02 00:00:01" (ingest okOracle "2024-01-02 00:00:00" emptyDB exEnv1).1 exEnv2).1.messages.countP
        (fun r => r.id == "M")) = 1
    ∧ (ingest okOracle "2024-01-02 00:00:01" (ingest okOracle "2024-01-02 00:00:00" emptyDB exEnv1).1 exEnv2).1.messages.find?
        (fun r => r.id == "M") = some (mkMessageRow "2024-01-02 00:00:01" exEnv2 exMsgIn2 "M")
    ∧ (mkMessageRow "2024-01-02 00:00:01" exEnv2 exMsgIn2 "M").content = some "second"
    ∧ (∃ t, (ingest okOracle "2024-01-02 00:00:01" (ingest okOracle "2024-01-02 00:00:00" emptyDB exEnv1).1 exEnv2).1.attachments
          = (ingest okOracle "2024-01-02 00:00:00" emptyDB exEnv1).1.attachments ++ t) := by
  have h := claim_c1_reingest_replaces_message_keeps_children okOracle okOracle
    "2024-01-02 00:00:00" "2024-01-02 00:00:01" emptyDB exEnv1 exEnv2 exMsgIn1 exMsgIn2 "M"
    rfl rfl rfl rfl (by decide) (by decide) rfl
  exact ⟨h.1, h.2.1, h.2.2.1, h.2.2.2.1⟩

/-- C3: a POST /messages body lacking `message` or `message.id` (or with a
falsy empty-string id) yields a 400 response with the validation error and
leaves the whole database untouched: no author upsert, no message row, no
child rows. -/
theorem claim_c3_validation_no_partial_write
    (o : Oracle) (now : String) (db : DB) (env : Envelope)
    (h : env.message = none
      ∨ ∃ msg, env.message = some msg ∧ (msg.id = none ∨ msg.id = some "")) :
    ingest o now db env = ⟨db, .badRequest missingIdError⟩ :=
  ingest_invalid o now db env h

/-- C3 witness: an envelope with no message object at all. -/
theorem claim_c3_validation_no_partial_write_witness :
    ingest okOracle "2024-01-02 00:00:00" exDb exEnvNoMessage
      = ⟨exDb, .badRequest missingIdError⟩ :=
  claim_c3_validation_no_partial_write okOracle "2024-01-02 00:00:00" exDb exEnvNoMessage
    (Or.inl rfl)

/-- C4: once validation passed and the Message upsert succeeded, the request
responds success for every combination of child-insert failures, and each
child item whose own insert does not fail is persisted regardless of what
happens to its siblings. -/
theorem claim_c4_child_failures_only_logged
    (o : Oracle) (now : String) (db : DB) (env : Envelope)
    (msg : InMessage) (mid : String)
    (henv : env.message = some msg) (hid : msg.id = some mid) (hne : mid ≠ "")
    (hok : o.msgFails = none) :
    (ingest o now db env).2 = .success
    ∧ (∀ items, msg.attachments = some items → ∀ i : Nat, ∀ h : i < items.length,
        o.attFails i = false →
          mkAttachmentRow mid (items.get ⟨i, h⟩) ∈ (ingest o now db env).1.attachments)
    ∧ (∀ items, msg.embeds = some items → ∀ i : Nat, ∀ h : i < items.length,
        o.embedFails i = false →
          mkEmbedRow mid (items.get ⟨i, h⟩) ∈ (ingest o now db env).1.embeds)
    ∧ (∀ items, msg.components = some items → ∀ i : Nat, ∀ h : i < items.length,
        o.compFails i = false →
          mkComponentRow mid (items.get ⟨i, h⟩) ∈ (ingest o now db env).1.components)
    ∧ (∀ items, msg.mentions = some items → ∀ i : Nat, ∀ h : i < items.length,
        o.mentionFails i = false →
          mkMentionRow mid (items.get ⟨i, h⟩) ∈ (ingest o now db env).1.mentions)
    ∧ (∀ mem, msg.member = some mem → o.memberFails = false →
        mkMemberRow mid mem ∈ (ingest o now db env).1.members)
    ∧ (∀ r, msg.message_reference = some r → o.msgRefFails = false →
        mkMessageRefRow mid r ∈ (ingest o now db env).1.message_references)
    ∧ (∀ rm, msg.referenced_message = some rm → o.refMsgFails = false →
        mkRefMessageRow mid rm ∈ (ingest o now db env).1.referenced_messages) := by
  rw [ingest_valid o now db env msg mid henv hid hne hok]
  dsimp only
  refine ⟨rfl, ?_, ?_, ?_, ?_, ?_, ?_, ?_⟩
  · intro items hitems i h hf
    simp only [attachmentsAfter, hitems]
    exact List.mem_append_right _ (mem_keptFrom _ _ items 0 i h (by simpa using hf))
  · intro items hitems i h hf
    simp only [embedsAfter, hitems]
    exact List.mem_append_right _ (mem_keptFrom _ _ items 0 i h (by simpa using hf))
  · intro items hitems i h hf
    simp only [componentsAfter, hitems]
    exact List.mem_append_right _ (mem_keptFrom _ _ items 0 i h (by simpa using hf))
  · intro items hitems i h hf
    simp only [mentionsAfter, hitems]
    exact List.mem_append_right _ (mem_keptFrom _ _ items 0 i h (by simpa using hf))
  · intro mem hmem hfail
    simp only [membersAfter, hmem, hfail, Bool.false_eq_true, if_false]
    exact List.mem_append_right _ (List.mem_singleton.mpr rfl)
  · intro r hr hfail
    simp only [msgRefsAfter, hr, hfail, Bool.false_eq_true, if_false]
    exact List.mem_append_right _ (List.mem_singleton.mpr rfl)
  · intro rm hrm hfail
    simp only [refMsgsAfter, hrm, hfail, Bool.false_eq_true, if_false]
    split
    · exact List.mem_append_right _ (List.mem_singleton.mpr rfl)
    · exact List.mem_append_right _ (List.mem_singleton.mpr rfl)

/-- C4 witness: with the insert of attachment 0 failing, the request still
responds success and attachment 1 is persisted. -/
theorem claim_c4_child_failures_only_logged_witness :
    (ingest failFirstAttOracle "2024-01-02 00:00:00" emptyDB exEnv1).2 = .success
    ∧ mkAttachmentRow "M" exAtt2
        ∈ (ingest failFirstAttOracle "2024-01-02 00:00:00" emptyDB exEnv1).1.attachments := by
  have h := claim_c4_child_failures_only_logged failFirstAttOracle "2024-01-02 00:00:00"
    emptyDB exEnv1 exMsgIn1 "M" rfl rfl (by decide) rfl
  exact ⟨h.1, h.2.1 [exAtt1, exAtt2] rfl 1 (by decide) rfl⟩

/-- C2: getMessageContext fails with NotFound on a nonexistent id; on an
existing id it returns the target joined with its author, the target's
channel id, the first at-most-20 other same-channel messages in ascending
message_timestamp order (a global prefix of the channel's timeline, not a
window centered on the target), and a count equal to that list's length;
and on the concrete three-message fixture (timestamps T, T+1m, T+10m in
channel "C") the context of the middle message is the other two, ordered
[T, T+10m]. -/
theorem claim_c2_assemble_context (db : DB) (mid : String) :
    (db.messages.find? (fun r => r.id == mid) = none →
      getMessageContext db mid = .error .notFound)
    ∧ (∀ ctx, getMessageContext db mid = .ok ctx →
        ∃ m, db.messages.find? (fun r => r.id == mid) = some m
          ∧ ctx.message = joinAuthor db m
          ∧ ctx.channel_id = m.channelId
          ∧ ctx.context_messages = contextListOf db m mid
          ∧ ctx.context_message_count = ctx.context_messages.length
          ∧ ctx.context_messages.length ≤ 20
          ∧ (∀ jm ∈ ctx.context_messages,
              sqlEqOpt jm.row.channelId m.channelId = true ∧ jm.row.id ≠ mid)
          ∧ ctx.context_messages.Pairwise
              (fun a b => leTs a.row.message_timestamp b.row.message_timestamp = true))
    ∧ (getMessageContext exDb "m2").toOption = some exCtx
    ∧ exCtx.context_messages.map (fun jm => jm.row.id) = ["m1", "m3"]
    ∧ exCtx.context_messages.map (fun jm => jm.row.message_timestamp)
        = [some "2024-01-01T10:00:00.000Z", some "2024-01-01T10:10:00.000Z"]
    ∧ exCtx.context_message_count = 2 := by
  refine ⟨?_, ?_, by decide, by decide, by decide, by decide⟩
  · intro h
    unfold getMessageContext
    rw [h]
  · intro ctx h
    rcases getMessageContext_ok_inv h with ⟨m, hf, hctx⟩
    subst hctx
    refine ⟨m, hf, rfl, rfl, rfl, rfl, contextListOf_length_le db m mid, ?_, ?_⟩
    · intro jm hjm
      rcases mem_contextListOf hjm with ⟨r, _, hch, hne, hj⟩
      subst hj
      rw [joinAuthor_row]
      exact ⟨hch, hne⟩
    · exact sorted_contextListOf db m mid

/-- C2 witness: the empty database has no message "missing". -/
theorem claim_c2_assemble_context_witness :
    getMessageContext emptyDB "missing" = .error .notFound :=
  (claim_c2_assemble_context emptyDB "missing").1 rfl

/-- C5: getChatLog turns every context-assembly failure into the empty
transcript — in particular a nonexistent id, where getMessageContext
rejects with NotFound but getChatLog returns []. -/
theorem claim_c5_chatlog_swallows_failures (db : DB) (mid : String) :
    (∀ e : CtxError, chatLogOfResult (.error e) = [])
    ∧ (db.messages.find? (fun r => r.id == mid) = none →
        getMessageContext db mid = .error .notFound ∧ getChatLog db mid = []) := by
  refine ⟨fun e => rfl, fun h => ?_⟩
  have hctx : getMessageContext db mid = .error .notFound := by
    unfold getMessageContext
    rw [h]
  exact ⟨hctx, by unfold getChatLog; rw [hctx]; rfl⟩

/-- C5 witness: getChatLog on an id absent from the empty database. -/
theorem claim_c5_chatlog_swallows_failures_witness :
    getMessageContext emptyDB "nope" = .error .notFound
    ∧ getChatLog emptyDB "nope" = [] :=
  (claim_c5_chatlog_swallows_failures emptyDB "nope").2 rfl

/-- C6: the transcript consists of the renders of the (re-sorted) context
messages, each line exactly "[HH:MM] name: content", where the name is the
author's globalName when that is present (and truthy) and otherwise their
username, and the HH:MM part is characters 11..15 of the precomputed
created_at when that is present (and truthy) and otherwise is derived from
the ISO message_timestamp. -/
theorem claim_c6_transcript_line_format (db : DB) (mid : String) (ctx : MessageContext)
    (h : getMessageContext db mid = .ok ctx) :
    getChatLog db mid = (sortCtxMessages ctx.context_messages).map renderLine
    ∧ (∀ jm : JoinedMessage,
        renderLine jm
          = "[" ++ renderTime jm ++ "] " ++ renderName jm ++ ": " ++ optVal jm.row.content
        ∧ (∀ g, jm.globalName = some g → g ≠ "" → renderName jm = g)
        ∧ ((jm.globalName = none ∨ jm.globalName = some "") →
            ∀ u, jm.username = some u → renderName jm = u)
        ∧ (∀ c, jm.row.created_at = some c → c ≠ "" →
            renderTime jm = (c.drop 11).take 5)
        ∧ ((jm.row.created_at = none ∨ jm.row.created_at = some "") →
            renderTime jm = isoToUtcHHMM jm.row.message_timestamp)) := by
  constructor
  · unfold getChatLog
    rw [h]
    rfl
  · intro jm
    refine ⟨rfl, ?_, ?_, ?_, ?_⟩
    · intro g hg hne
      unfold renderName jsOrStr
      rw [hg]
      simp [hne, optVal]
    · intro hgn u hu
      unfold renderName jsOrStr
      rcases hgn with hgn | hgn
      · rw [hgn, hu]; rfl
      · rw [hgn, hu]; simp [optVal]
    · intro c hc hne
      unfold renderTime
      rw [hc]
      simp [hne]
    · intro hcat
      unfold renderTime
      rcases hcat with hcat | hcat
      · rw [hcat]
      · rw [hcat]; simp

/-- C6 witness: the transcript of the concrete fixture around "m2". -/
theorem claim_c6_transcript_line_format_witness :
    getChatLog exDb "m2" = (sortCtxMessages exCtx.context_messages).map renderLine :=
  (claim_c6_transcript_line_format exDb "m2" exCtx
    (except_ok_of_toOption _ _ (by decide))).1

/-- C7: across the Read API only the two singular lookups — message by id
and author by id — respond NotFound, exactly when no row matches; every
other read endpoint answers 200, with an empty list (or, for the
`db.get`-shaped child lookups, an absent row) when nothing matches. -/
theorem claim_c7_only_singular_lookups_404 :
    (∀ db mid, getMessageById db mid = ReadResp.notFound "Message not found" ↔
        db.messages.find? (fun r => r.id == mid) = none)
    ∧ (∀ db aid, getAuthorById db aid = ReadResp.notFound "Author not found" ↔
        db.authors.find? (fun a => a.id == aid) = none)
    ∧ (∀ db, db.messages = [] → getAllMessages db = .ok [])
    ∧ (∀ db uid, db.messages.filter (fun m => sqlEqOpt m.author_id (some uid)) = [] →
        getMessagesByUser db uid = .ok [])
    ∧ (∀ db, db.authors = [] → getAuthors db = .ok [])
    ∧ (∀ db mid, db.attachments.filter (fun r => r.message_id == mid) = [] →
        getMessageAttachments db mid = .ok [])
    ∧ (∀ db mid, db.embeds.filter (fun r => r.message_id == mid) = [] →
        getMessageEmbeds db mid = .ok [])
    ∧ (∀ db mid, db.components.filter (fun r => r.message_id == mid) = [] →
        getMessageComponents db mid = .ok [])
    ∧ (∀ db mid, db.mentions.filter (fun r => r.message_id == mid) = [] →
        getMessageMentions db mid = .ok [])
    ∧ (∀ db, ∃ b, getAllMessages db = .ok b)
    ∧ (∀ db uid, ∃ b, getMessagesByUser db uid = .ok b)
    ∧ (∀ db, ∃ b, getAuthors db = .ok b)
    ∧ (∀ db mid, ∃ b, getMessageAttachments db mid = .ok b)
    ∧ (∀ db mid, ∃ b, getMessageEmbeds db mid = .ok b)
    ∧ (∀ db mid, ∃ b, getMessageComponents db mid = .ok b)
    ∧ (∀ db mid, ∃ b, getMessageMentions db mid = .ok b)
    ∧ (∀ db mid, ∃ b, getMessageMember db mid = .ok b)
    ∧ (∀ db mid, ∃ b, getMessageRef db mid = .ok b)
    ∧ (∀ db mid, ∃ b, getReferencedMessage db mid = .ok b) := by
  refine ⟨?_, ?_, ?_, ?_, ?_, ?_, ?_, ?_, ?_,
          fun db => ⟨_, rfl⟩, fun db uid => ⟨_, rfl⟩, fun db => ⟨_, rfl⟩,
          fun db mid => ⟨_, rfl⟩, fun db mid => ⟨_, rfl⟩, fun db mid => ⟨_, rfl⟩,
          fun db mid => ⟨_, rfl⟩, fun db mid => ⟨_, rfl⟩, fun db mid => ⟨_, rfl⟩,
          fun db mid => ⟨_, rfl⟩⟩
  · intro db mid
    unfold getMessageById
    cases hf : db.messages.find? (fun r => r.id == mid) with
    | none => simp
    | some m => simp
  · intro db aid
    unfold getAuthorById
    cases hf : db.authors.find? (fun a => a.id == aid) with
    | none => simp
    | some a => simp
  · intro db h
    unfold getAllMessages
    rw [h]
    rfl
  · intro db uid h
    unfold getMessagesByUser
    rw [h]
    rfl
  · intro db h
    unfold getAuthors
    rw [h]
    rfl
  · intro db mid h
    unfold getMessageAttachments
    rw [h]
  · intro db mid h
    unfold getMessageEmbeds
    rw [h]
  · intro db mid h
    unfold getMessageComponents
    rw [h]
  · intro db mid h
    unfold getMessageMentions
    rw [h]

/-- C7 witness: the empty database — both singular lookups miss, the list
endpoints answer empty lists. -/
theorem claim_c7_only_singular_lookups_404_witness :
    getMessageById emptyDB "x" = ReadResp.notFound "Message not found"
    ∧ getAuthorById emptyDB "x" = ReadResp.notFound "Author not found"
    ∧ getAllMessages emptyDB = .ok []
    ∧ getMessageAttachments emptyDB "x" = .ok [] := by
  have h := claim_c7_only_singular_lookups_404
  exact ⟨(h.1 emptyDB "x").mpr rfl, (h.2.1 emptyDB "x").mpr rfl,
         h.2.2.1 emptyDB rfl, h.2.2.2.2.2.1 emptyDB "x" rfl⟩

/-- C8: POST /messages/classifier joins the request's texts with newline
separators into one blob and always issues the outbound POST to the fixed
predict endpoint; for zero texts the forwarded text is the empty string and
the call is still attempted. -/
theorem claim_c8_classifier_newline_join :
    (∀ body : ClassifierBody,
        classifierForward body = ⟨predictEndpoint, String.intercalate "\n" body.text⟩)
    ∧ classifierForward ⟨[]⟩ = ⟨predictEndpoint, ""⟩
    ∧ classifierForward ⟨["a", "b"]⟩ = ⟨predictEndpoint, "a\nb"⟩
    ∧ (∀ body : ClassifierBody, (classifierForward body).url = predictEndpoint) :=
  ⟨fun _ => rfl, rfl, rfl, fun _ => rfl⟩

/-- C8 witness: the empty text list still produces an outbound request, with
the empty string as body text. -/
theorem claim_c8_classifier_newline_join_witness :
    classifierForward ⟨[]⟩ = ⟨predictEndpoint, ""⟩ :=
  claim_c8_classifier_newline_join.2.1

/-- C9: no handler ever writes the user_insights table — ingestion preserves
it verbatim and the generation endpoint only computes its statistics — so in
every reachable state the user-insights read endpoint returns the empty
result for every user. -/
theorem claim_c9_user_insights_always_empty :
    (∀ (o : Oracle) (now : String) (db : DB) (env : Envelope),
        ((ingest o now db env).1).user_insights = db.user_insights)
    ∧ (∀ db, Reachable db → db.user_insights = [])
    ∧ (∀ db, Reachable db → ∀ uid,
        getUserInsightsRead db uid = ⟨uid, [], some "No insights found for this user"⟩) := by
  have hreach : ∀ db, Reachable db → db.user_insights = [] := by
    intro db h
    induction h with
    | init => rfl
    | postMessages o now env _ ih => rw [ingest_user_insights]; exact ih
  refine ⟨ingest_user_insights, hreach, ?_⟩
  intro db h uid
  unfold getUserInsightsRead
  rw [hreach db h]
  rfl

/-- C9 witness: the freshly created database. -/
theorem claim_c9_user_insights_always_empty_witness :
    getUserInsightsRead emptyDB "u" = ⟨"u", [], some "No insights found for this user"⟩ :=
  claim_c9_user_insights_always_empty.2.2 emptyDB Reachable.init "u"

/-- C10: the transcript renders one line per context message only — every
line is the render of a context message, all of which have an id different
from the target's — so the tone prompt, which interpolates exactly the
JSON-serialized transcript, is built only from the context messages and
never from the target message's own row. -/
theorem claim_c10_target_never_rendered (db : DB) (mid : String) (ctx : MessageContext)
    (h : getMessageContext db mid = .ok ctx) :
    getChatLog db mid = (sortCtxMessages ctx.context_messages).map renderLine
    ∧ (getChatLog db mid).length = ctx.context_message_count
    ∧ (∀ jm ∈ ctx.context_messages, jm.row.id ≠ mid)
    ∧ (∀ line ∈ getChatLog db mid,
        ∃ jm, jm ∈ ctx.context_messages ∧ jm.row.id ≠ mid ∧ line = renderLine jm)
    ∧ (toneQueryFor db mid).content
        = tonePreamble
          ++ jsonStringifyStrings ((sortCtxMessages ctx.context_messages).map renderLine)
          ++ toneEpilogue := by
  have hlog : getChatLog db mid = (sortCtxMessages ctx.context_messages).map renderLine := by
    unfold getChatLog
    rw [h]
    rfl
  have hmem : ∀ jm ∈ ctx.context_messages, jm.row.id ≠ mid := by
    rcases getMessageContext_ok_inv h with ⟨m, _, hctx⟩
    subst hctx
    intro jm hjm
    rcases mem_contextListOf hjm with ⟨r, _, _, hne, hj⟩
    subst hj
    rw [joinAuthor_row]
    exact hne
  have hcount : ctx.context_message_count = ctx.context_messages.length := by
    rcases getMessageContext_ok_inv h with ⟨m, _, hctx⟩
    subst hctx
    rfl
  refine ⟨hlog, ?_, hmem, ?_, ?_⟩
  · rw [hlog, List.length_map]
    unfold sortCtxMessages
    rw [length_insertionSortB, hcount]
  · intro line hline
    rw [hlog] at hline
    rcases List.mem_map.mp hline with ⟨jm, hjm, hl⟩
    have hjm' := (mem_insertionSortB chatLogLe ctx.context_messages jm).mp hjm
    exact ⟨jm, hjm', hmem jm hjm', hl.symm⟩
  · unfold toneQueryFor
    rw [hlog]

/-- C10 witness: on the concrete fixture the transcript around "m2" has
exactly as many lines as context messages. -/
theorem claim_c10_target_never_rendered_witness :
    (getChatLog exDb "m2").length = exCtx.context_message_count :=
  (claim_c10_target_never_rendered exDb "m2" exCtx
    (except_ok_of_toOption _ _ (by decide))).2.1

end AiDetect
